import Mathlib

/-!
Verification development for the modpack-downloader program
(src/index.ts, current variant; src/unnamed/part_000, earlier variant).

The program is modelled by a shallow embedding:
- the filesystem is a state `FS` (a list of created directories and an
  association list of written files), with `mkdir -p` and file-write
  operations mirroring the fs calls of the source;
- the downloaded zip archive is a `JSZip` value whose operations
  `file`, `folder` and folder enumeration follow the semantics of the
  JSZip library used by the source;
- network fetches are an uninterpreted environment `Network` mapping
  (projectID, fileID) to metadata and URLs to bodies, matching
  fetchModFileInfo and fetch of the source;
- paths are normalized into segment lists (the source only ever builds
  paths with path.join and dirname);
- the concurrent parts (promise-limit scheduling, the shared
  downloadedCount counter) are modelled as small-step transition
  systems over which all interleavings are quantified.
-/

namespace ModpackDownloader

/-- Paths are modelled as lists of segments. -/
abbrev FilePath := List String

/-- Splits a character list at every occurrence of the separator. -/
def splitOnChar (c : Char) : List Char → List (List Char)
  | [] => [[]]
  | x :: xs =>
    match splitOnChar c xs with
    | [] => if x = c then [[], []] else [[x]]
    | y :: ys => if x = c then [] :: y :: ys else (x :: y) :: ys

/-- Splits a path string into its nonempty segments, normalizing
separators the way path.join and dirname of node treat them. -/
def segs (s : String) : List String :=
  ((splitOnChar (Char.ofNat 47) s.data).map (fun cs => String.mk cs)).filter
    (fun t => t ≠ "")

/-- Prefix test on strings by their character lists. -/
def strIsPrefix (p s : String) : Bool :=
  p.data.isPrefixOf s.data

/-- Drops the first n characters of a string. -/
def strDrop (s : String) (n : Nat) : String :=
  String.mk (s.data.drop n)

/-- Filesystem state: the set of directories created so far and the
files written so far (an association list from path to contents; a
write to an existing path overwrites it). -/
structure FS where
  dirs : List FilePath
  files : List (FilePath × String)
deriving DecidableEq

/-- The empty filesystem (a fresh target directory). -/
def FS.empty : FS := ⟨[], []⟩

/-- Models fs.promises.mkdir(path, recursive: true): creates the
directory and all its ancestors; changes no file. -/
def FS.mkdirRec (fs : FS) (p : FilePath) : FS :=
  { fs with dirs := (List.range p.length).map (fun i => p.take (i + 1)) ++ fs.dirs }

/-- Paths of the files present on the filesystem. -/
def FS.paths (fs : FS) : List FilePath := fs.files.map Prod.fst

/-- Models streaming a whole body into fs.createWriteStream(path):
the file at that path now holds exactly the streamed contents,
overwriting any previous file there. -/
def FS.writeFile (fs : FS) (p : FilePath) (c : String) : FS :=
  { fs with files := (p, c) :: fs.files.filter (fun q => q.1 != p) }

/-- An entry of the zip archive, as JSZip exposes it: full name inside
the archive (directory entries end with a slash), directory flag, and
decompressed contents. -/
structure ZipEntry where
  name : String
  dir : Bool
  content : String
deriving DecidableEq

/-- The opened archive: its entry list in enumeration order.  Entry
names are unique in a well-formed archive. -/
structure JSZip where
  files : List ZipEntry
deriving DecidableEq

/-- Models JSZip file(name): the entry of that exact name, or null when
it is absent or is a directory. -/
def JSZip.file (z : JSZip) (name : String) : Option ZipEntry :=
  match z.files.find? (fun e => e.name == name) with
  | some e => if e.dir then none else some e
  | none => none

/-- A JSZip sub-instance rooted at a folder, as returned by
folder(name). -/
structure JSZipFolder where
  root : String
  files : List ZipEntry
deriving DecidableEq

/-- Models JSZip folder(name) with a string argument: per the JSZip
library this CREATES the directory entry if it does not exist and
returns the sub-instance rooted there; it never returns null.  The
Option in the result type mirrors the nullability the calling code
tests for, and is always some. -/
def JSZip.folder (z : JSZip) (name : String) : Option JSZipFolder :=
  let root := name ++ "/"
  some ⟨root, if z.files.any (fun e => e.name == root) then z.files
              else z.files ++ [⟨root, true, ""⟩]⟩

/-- Models JSZip forEach on a folder sub-instance: every entry whose
name extends the root, paired with its root-relative path; the root
itself (empty relative path) is skipped, in archive enumeration
order. -/
def JSZipFolder.entries (f : JSZipFolder) : List (String × ZipEntry) :=
  (f.files.filter (fun e => strIsPrefix f.root e.name && e.name != f.root)).map
    (fun e => (strDrop e.name f.root.length, e))

/-- FileMetadata returned by the remote API for a (projectID, fileID)
pair, as the ModFileInfo type of the source. -/
structure ModFileInfo where
  id : Nat
  displayName : String
  fileName : String
  downloadUrl : String
deriving DecidableEq

/-- One files-array element of manifest.json. -/
structure ManifestEntry where
  projectID : Nat
  fileID : Nat
deriving DecidableEq

/-- The parsed manifest.json shape (ModpackManifest of the source). -/
structure ModpackManifest where
  files : List ManifestEntry
deriving DecidableEq

/-- The network environment: fetchModFileInfo resolving an identifier
pair to metadata, and the body served when fetching a URL. -/
structure Network where
  modFileInfo : Nat → Nat → ModFileInfo
  body : String → String

/-- Outcome of a phase: normal completion, or a thrown error with its
message; either way the filesystem state reached at that point. -/
inductive Outcome where
  | ok (fs : FS)
  | err (msg : String) (fs : FS)
deriving DecidableEq

/-- The filesystem state an outcome carries. -/
def Outcome.toFS : Outcome → FS
  | .ok fs => fs
  | .err _ fs => fs

/-- Destination path of one mod download:
join(targetDir, "mods", modInfo.fileName). -/
def modDest (targetDir : String) (info : ModFileInfo) : FilePath :=
  segs targetDir ++ ["mods"] ++ segs info.fileName

/-- Body of one download task of downloadMods (src/index.ts lines
73-93): resolve metadata for the manifest entry, fetch its
downloadUrl, and stream the body into mods/fileName. -/
def downloadTask (net : Network) (targetDir : String) (e : ManifestEntry) (fs : FS) : FS :=
  let info := net.modFileInfo e.projectID e.fileID
  fs.writeFile (modDest targetDir info) (net.body info.downloadUrl)

/-- The download loop over the manifest entries.  The per-file effects
are modelled in list order; each task writes a single whole file, so
any interleaving of completions yields the effects of some permutation
of this list (see the permutation theorems below). -/
def downloadFold (net : Network) (targetDir : String)
    (l : List ManifestEntry) (fs : FS) : FS :=
  l.foldl (fun fs e => downloadTask net targetDir e fs) fs

/-- downloadMods of the source: mkdir targetDir/mods recursively, look
up manifest.json (throwing "invalid modpack" when absent), parse it as
JSON (jsonParse models JSON.parse, none modelling a thrown
SyntaxError), then download every listed file into mods/. -/
def downloadMods (net : Network) (jsonParse : String → Option ModpackManifest)
    (modpack : JSZip) (targetDir : String) (fs : FS) : Outcome :=
  let fs1 := fs.mkdirRec (segs targetDir ++ ["mods"])
  match modpack.file "manifest.json" with
  | none => .err "invalid modpack" fs1
  | some entry =>
    match jsonParse entry.content with
    | none => .err "json parse error" fs1
    | some manifest => .ok (downloadFold net targetDir manifest.files fs1)

/-- One override entry step of expandOverrides in src/index.ts: a
directory marker is created with mkdir recursive; a file entry first
gets its parent directory created, then its decompressed bytes
streamed to join(targetDir, path). -/
def overrideStep (targetDir : String) (fs : FS) (pe : String × ZipEntry) : FS :=
  if pe.2.dir then
    fs.mkdirRec (segs targetDir ++ segs pe.1)
  else
    (fs.mkdirRec (segs targetDir ++ (segs pe.1).dropLast)).writeFile
      (segs targetDir ++ segs pe.1) pe.2.content

/-- expandOverrides of src/index.ts: take the overrides folder
sub-instance (checking it for null, a check JSZip can never trigger),
enumerate its entries, and process them sequentially. -/
def expandOverrides (modpack : JSZip) (targetDir : String) (fs : FS) : Outcome :=
  match modpack.folder "overrides" with
  | none => .err "missing overrides in modpack zip" fs
  | some ov => .ok (ov.entries.foldl (overrideStep targetDir) fs)

/-- One override entry step of expandOverrides in the earlier variant
src/unnamed/part_000: no directory-marker case; every entry, directory
markers included, gets mkdir of its dirname followed by a file write at
join(targetDir, path). -/
def overrideStepV0 (targetDir : String) (fs : FS) (pe : String × ZipEntry) : FS :=
  (fs.mkdirRec (segs targetDir ++ (segs pe.1).dropLast)).writeFile
    (segs targetDir ++ segs pe.1) pe.2.content

/-- expandOverrides of the earlier variant src/unnamed/part_000. -/
def expandOverridesV0 (modpack : JSZip) (targetDir : String) (fs : FS) : Outcome :=
  match modpack.folder "overrides" with
  | none => .err "missing overrides in modpack zip" fs
  | some ov => .ok (ov.entries.foldl (overrideStepV0 targetDir) fs)

/-- The filesystem-affecting phases of the top-level sequence:
downloadMods then expandOverrides, the second only on success of the
first (src/index.ts lines 158-159). -/
def runModpack (net : Network) (jsonParse : String → Option ModpackManifest)
    (modpack : JSZip) (targetDir : String) (fs : FS) : Outcome :=
  match downloadMods net jsonParse modpack targetDir fs with
  | .err m f => .err m f
  | .ok f => expandOverrides modpack targetDir f

/-- A parsed WHATWG URL as the node URL class exposes it to this
program: protocol (with trailing colon), hostname, and the query
parameters in order. -/
structure NodeURL where
  protocol : String
  hostname : String
  searchParams : List (String × String)
deriving DecidableEq

/-- Models searchParams.get(name): value of the first parameter with
this name, or null. -/
def NodeURL.get (u : NodeURL) (k : String) : Option String :=
  (u.searchParams.find? (fun p => p.1 == k)).map Prod.snd

/-- Result of parseCommandLineArgs: usage message with exit 1, a
TypeError thrown by the URL constructor on a malformed URI, the thrown
Error("bad url"), or the returned record. -/
inductive ArgsResult where
  | usage
  | urlThrow
  | badUrl
  | ok (targetDir addonId fileId : String)
deriving DecidableEq

/-- parseCommandLineArgs of the source, taking the two relevant
process.argv slots (none when absent) and the URL constructor
behaviour (newURL s is none when the constructor throws on s).  The
guards keep the JavaScript truthiness semantics: an absent or empty
string argument prints usage, and an empty query-parameter value fails
exactly like an absent one. -/
def parseCommandLineArgs (strModpackUrl targetDir : Option String)
    (newURL : String → Option NodeURL) : ArgsResult :=
  match strModpackUrl, targetDir with
  | some s, some tdir =>
    if s = "" ∨ s = "--help" ∨ tdir = "" then .usage
    else
      match newURL s with
      | none => .urlThrow
      | some u =>
        if u.protocol ≠ "curseforge:" ∨ u.hostname ≠ "install" then .badUrl
        else
          match u.get "addonId", u.get "fileId" with
          | some a, some f =>
            if a = "" ∨ f = "" then .badUrl else .ok tdir a f
          | _, _ => .badUrl
  | _, _ => .usage

/-- The URI string curseforge://install?addonId=X&fileId=Y. -/
def installUriString (x y : String) : String :=
  "curseforge://install?addonId=" ++ x ++ "&fileId=" ++ y

/-- The WHATWG parse of installUriString x y, with x and y the decoded
parameter values: scheme curseforge, host install, the two query
parameters in order. -/
def installUrl (x y : String) : NodeURL :=
  ⟨"curseforge:", "install", [("addonId", x), ("fileId", y)]⟩

/-- A sequence of whole-file writes applied in order. -/
def applyWrites (fs : FS) (ws : List (FilePath × String)) : FS :=
  ws.foldl (fun fs w => fs.writeFile w.1 w.2) fs

/-- The write performed for a manifest entry by its download task. -/
def modWrite (net : Network) (targetDir : String) (e : ManifestEntry) :
    FilePath × String :=
  let info := net.modFileInfo e.projectID e.fileID
  (modDest targetDir info, net.body info.downloadUrl)

/-- Destination paths of the downloads of a list of manifest
entries. -/
def modsPaths (net : Network) (targetDir : String) (l : List ManifestEntry) :
    List FilePath :=
  l.map (fun e => (modWrite net targetDir e).1)

/-- The write performed for a non-directory override entry. -/
def ovWrite (targetDir : String) (pe : String × ZipEntry) : FilePath × String :=
  (segs targetDir ++ segs pe.1, pe.2.content)

/-- The entries enumerated under the overrides folder of an archive. -/
def overridesEntries (z : JSZip) : List (String × ZipEntry) :=
  match z.folder "overrides" with
  | some f => f.entries
  | none => []

/-- The non-directory entries under the overrides folder. -/
def ovFileEntries (z : JSZip) : List (String × ZipEntry) :=
  (overridesEntries z).filter (fun pe => !pe.2.dir)

/-- Target paths mirrored from the override file entries. -/
def ovPaths (z : JSZip) (targetDir : String) : List FilePath :=
  (ovFileEntries z).map (fun pe => (ovWrite targetDir pe).1)

/-- The fixed concurrency limit of the bounded variant:
promiseLimit(6) at src/index.ts line 57. -/
def downloadLimit : Nat := 6

/-- State of the promise-limit scheduler wrapping the download tasks:
how many tasks are still queued, how many are in flight, and how many
have finished. -/
structure SchedState where
  queued : Nat
  running : Nat
  finished : Nat
deriving DecidableEq

/-- Small-step semantics of the promise-limit package used at
src/index.ts line 57: a queued task starts only while fewer than the
limit are in flight; an in-flight task may finish at any time, freeing
its slot.  All interleavings of the download tasks are runs of this
relation. -/
inductive SchedStep (limit : Nat) : SchedState → SchedState → Prop
  | start (q r d : Nat) : r < limit → SchedStep limit ⟨q + 1, r, d⟩ ⟨q, r + 1, d⟩
  | finish (q r d : Nat) : SchedStep limit ⟨q, r + 1, d⟩ ⟨q, r, d + 1⟩

/-- Reachability under the scheduler steps. -/
def SchedReach (limit : Nat) : SchedState → SchedState → Prop :=
  Relation.ReflTransGen (SchedStep limit)

/-- State of the shared completion counter of downloadMods: the tasks
not yet completed (by identity) and the value of downloadedCount.  A
step completes any pending task and increments the counter once; the
increment is a single synchronous step of the event loop, as the
postfix increment at src/index.ts line 91 is. -/
inductive CountStep : List Nat × Nat → List Nat × Nat → Prop
  | complete (pre post : List Nat) (t : Nat) (c : Nat) :
      CountStep (pre ++ t :: post, c) (pre ++ post, c + 1)

/-- Reachability under counter steps. -/
def CountReach : List Nat × Nat → List Nat × Nat → Prop :=
  Relation.ReflTransGen CountStep

/-- Network fixture whose metadata gives every project a distinct
remote file name. -/
def netDistinct : Network :=
  ⟨fun p _ => ⟨p, "mod", toString p ++ ".jar", "url" ++ toString p⟩,
   fun u => "bytes " ++ u⟩

/-- Network fixture whose metadata maps every project to the same
remote file name. -/
def netClash : Network :=
  ⟨fun p _ => ⟨p, "mod", "same.jar", "url" ++ toString p⟩,
   fun u => "bytes " ++ u⟩

/-- JSON environment fixture: parses the literal manifest text of the
fixture archives into a given manifest. -/
def jsonEnv (m : ModpackManifest) : String → Option ModpackManifest :=
  fun s => if s = "MANIFEST" then some m else none

/-- Archive fixture with a manifest but no overrides subtree. -/
def zipNoOverrides : JSZip := ⟨[⟨"manifest.json", false, "MANIFEST"⟩]⟩

/-- Archive fixture whose overrides subtree holds a single directory
marker entry. -/
def zipDirMarker : JSZip :=
  ⟨[⟨"overrides/", true, ""⟩, ⟨"overrides/config/", true, ""⟩]⟩

/-- Archive fixture with one manifest, one directory marker and one
override file. -/
def zipFull : JSZip :=
  ⟨[⟨"manifest.json", false, "MANIFEST"⟩, ⟨"overrides/", true, ""⟩,
    ⟨"overrides/config/", true, ""⟩, ⟨"overrides/config/a.txt", false, "hello"⟩]⟩

/-- Manifest fixture with a single entry. -/
def manifestOne : ModpackManifest := ⟨[⟨1, 2⟩]⟩

/-- Manifest fixture with two entries. -/
def manifestTwo : ModpackManifest := ⟨[⟨1, 2⟩, ⟨3, 4⟩]⟩

/-- Length computation showing the install URI is never the empty
argument. -/
lemma installUriString_ne_empty (x y : String) : installUriString x y ≠ "" := by
  intro h
  have hl := congrArg String.length h
  simp [installUriString, String.length_append] at hl
  exact absurd hl.1.1.1 (by decide)

/-- Length computation showing the install URI is never the help
flag. -/
lemma installUriString_ne_help (x y : String) : installUriString x y ≠ "--help" := by
  intro h
  have hl := congrArg String.length h
  simp [installUriString, String.length_append] at hl
  have h1 : ("curseforge://install?addonId=").length = 29 := by decide
  have h2 : ("&fileId=").length = 8 := by decide
  have h3 : ("--help").length = 6 := by decide
  omega

/-- Lookup of the addonId parameter on the install URL. -/
lemma installUrl_get_addonId (x y : String) :
    (installUrl x y).get "addonId" = some x := by
  simp [installUrl, NodeURL.get, List.find?]

/-- Lookup of the fileId parameter on the install URL. -/
lemma installUrl_get_fileId (x y : String) :
    (installUrl x y).get "fileId" = some y := by
  simp [installUrl, NodeURL.get, List.find?]

/-- Protocol of the install URL. -/
lemma installUrl_protocol (x y : String) :
    (installUrl x y).protocol = "curseforge:" := rfl

/-- Hostname of the install URL. -/
lemma installUrl_hostname (x y : String) :
    (installUrl x y).hostname = "install" := rfl

/-- Files of the filesystem are untouched by recursive mkdir. -/
lemma FS.files_mkdirRec (fs : FS) (p : FilePath) : (fs.mkdirRec p).files = fs.files := rfl

/-- Writing to a path not yet on the filesystem just adds the file. -/
lemma FS.files_writeFile_fresh (fs : FS) (p : FilePath) (c : String)
    (h : p ∉ fs.paths) : (fs.writeFile p c).files = (p, c) :: fs.files := by
  unfold FS.writeFile
  simp only [FS.paths] at h
  have : fs.files.filter (fun q => q.1 != p) = fs.files := by
    apply List.filter_eq_self.mpr
    intro q hq
    simp only [bne_iff_ne, ne_eq, decide_eq_true_eq]
    intro hqp
    exact h (hqp ▸ List.mem_map_of_mem Prod.fst hq)
  rw [this]

/-- The file contents written by writeFile depend only on the files
already present, not on the directories. -/
lemma FS.files_writeFile_congr {fs₁ fs₂ : FS} (p : FilePath) (c : String)
    (h : fs₁.files = fs₂.files) : (fs₁.writeFile p c).files = (fs₂.writeFile p c).files := by
  simp [FS.writeFile, h]

/-- A target path is registered as a directory after recursive mkdir
of that path. -/
lemma FS.mem_mkdirRec_self (fs : FS) (p : FilePath) (hp : p ≠ []) :
    p ∈ (fs.mkdirRec p).dirs := by
  unfold FS.mkdirRec
  simp only [List.mem_append, List.mem_map, List.mem_range]
  have hlen : 0 < p.length := List.length_pos.mpr hp
  exact Or.inl ⟨p.length - 1, by omega, by
    rw [Nat.sub_add_cancel hlen, List.take_length]⟩

/-- When the written paths are distinct among themselves and from the
paths already present, a write sequence simply prepends the writes in
reverse order. -/
lemma applyWrites_files (ws : List (FilePath × String)) (fs : FS)
    (h : (ws.map Prod.fst ++ fs.paths).Nodup) :
    (applyWrites fs ws).files = ws.reverse ++ fs.files := by
  induction ws generalizing fs with
  | nil => simp [applyWrites]
  | cons w ws ih =>
    simp only [List.map_cons, List.cons_append, List.nodup_cons, List.mem_append] at h
    have hfresh : w.1 ∉ fs.paths := fun hmem => h.1 (Or.inr hmem)
    have hstep : (fs.writeFile w.1 w.2).files = (w.1, w.2) :: fs.files :=
      FS.files_writeFile_fresh fs w.1 w.2 hfresh
    have hpaths : (fs.writeFile w.1 w.2).paths = w.1 :: fs.paths := by
      simp [FS.paths, hstep]
    have hnodup : (ws.map Prod.fst ++ (fs.writeFile w.1 w.2).paths).Nodup := by
      rw [hpaths]
      refine List.Perm.nodup (List.perm_middle).symm ?_
      rw [List.nodup_cons]
      exact ⟨by simpa [List.mem_append] using h.1, h.2⟩
    have := ih (fs.writeFile w.1 w.2) hnodup
    simp only [applyWrites, List.foldl_cons] at this ⊢
    rw [this, hstep]
    simp

/-- The download loop is exactly the sequence of per-entry whole-file
writes. -/
lemma downloadFold_eq_applyWrites (net : Network) (targetDir : String)
    (l : List ManifestEntry) (fs : FS) :
    downloadFold net targetDir l fs = applyWrites fs (l.map (modWrite net targetDir)) := by
  simp [downloadFold, applyWrites, List.foldl_map, downloadTask, modWrite]

/-- Over the files of the filesystem, the sequential override loop of
src/index.ts acts exactly as the write sequence of its non-directory
entries (directory markers only touch directories). -/
lemma overrideFold_files (targetDir : String) (entries : List (String × ZipEntry)) :
    ∀ fs₁ fs₂ : FS, fs₁.files = fs₂.files →
    (entries.foldl (overrideStep targetDir) fs₁).files =
      (applyWrites fs₂ ((entries.filter (fun pe => !pe.2.dir)).map (ovWrite targetDir))).files := by
  induction entries with
  | nil =>
    intro fs₁ fs₂ h
    simpa [applyWrites] using h
  | cons pe rest ih =>
    intro fs₁ fs₂ h
    by_cases hd : pe.2.dir
    · have hfiles : (overrideStep targetDir fs₁ pe).files = fs₂.files := by
        simp [overrideStep, hd, FS.files_mkdirRec, h]
      simpa [List.foldl_cons, List.filter_cons, hd] using ih _ _ hfiles
    · have hfiles : (overrideStep targetDir fs₁ pe).files =
          (fs₂.writeFile (ovWrite targetDir pe).1 (ovWrite targetDir pe).2).files := by
        simp only [overrideStep, hd, if_neg, Bool.false_eq_true, not_false_iff]
        exact FS.files_writeFile_congr _ _ (by simp [FS.files_mkdirRec, h])
      simpa [List.foldl_cons, List.filter_cons, hd, applyWrites] using ih _ _ hfiles

/-- Stated form of expandOverrides: the null check never fires, and
the loop folds the override entries over the filesystem. -/
lemma expandOverrides_eq (z : JSZip) (t : String) (fs : FS) :
    expandOverrides z t fs =
      Outcome.ok ((overridesEntries z).foldl (overrideStep t) fs) := rfl

/-- Each counter step trades one pending task for one increment. -/
lemma countStep_invariant {s t : List Nat × Nat} (h : CountStep s t) :
    t.1.length + t.2 = s.1.length + s.2 := by
  cases h with
  | complete pre post tsk c => simp [List.length_append]; omega

/-- The pending-plus-counter sum is invariant along any run. -/
lemma countReach_invariant {s t : List Nat × Nat} (h : CountReach s t) :
    t.1.length + t.2 = s.1.length + s.2 := by
  induction h with
  | refl => rfl
  | tail _ hstep ih => rw [countStep_invariant hstep, ih]

/-- C1 (amended): for every URI curseforge://install?addonId=X&fileId=Y
with X and Y nonempty, given a nonempty target directory argument,
parsing returns exactly the pair with the target directory; any URI
with another scheme or host fails with the bad-url error, and so does
any URI whose addonId or fileId query parameter is absent. -/
theorem c1_parse_install_uri (x y tdir : String)
    (hx : x ≠ "") (hy : y ≠ "") (htd : tdir ≠ "") :
    parseCommandLineArgs (some (installUriString x y)) (some tdir)
      (fun _ => some (installUrl x y)) = ArgsResult.ok tdir x y ∧
    (∀ (s : String) (u : NodeURL), s ≠ "" → s ≠ "--help" →
      u.protocol ≠ "curseforge:" ∨ u.hostname ≠ "install" →
      parseCommandLineArgs (some s) (some tdir) (fun _ => some u) = ArgsResult.badUrl) ∧
    (∀ (s : String) (u : NodeURL), s ≠ "" → s ≠ "--help" →
      u.get "addonId" = none ∨ u.get "fileId" = none →
      parseCommandLineArgs (some s) (some tdir) (fun _ => some u) = ArgsResult.badUrl) := by
  refine ⟨?_, ?_, ?_⟩
  · simp [parseCommandLineArgs, installUriString_ne_empty x y,
      installUriString_ne_help x y, htd, installUrl_protocol, installUrl_hostname,
      installUrl_get_addonId, installUrl_get_fileId, hx, hy]
  · intro s u hs hh hbad
    rcases hbad with hb | hb <;>
      simp [parseCommandLineArgs, hs, hh, htd, hb]
  · intro s u hs hh hmiss
    rcases hmiss with hm | hm
    · rcases hf : u.get "fileId" with _ | f <;>
        by_cases hp : u.protocol = "curseforge:" <;>
          by_cases hq : u.hostname = "install" <;>
            simp [parseCommandLineArgs, hs, hh, htd, hm, hf, hp, hq]
    · rcases ha : u.get "addonId" with _ | a <;>
        by_cases hp : u.protocol = "curseforge:" <;>
          by_cases hq : u.hostname = "install" <;>
            simp [parseCommandLineArgs, hs, hh, htd, hm, ha, hp, hq]

/-- Witness for C1 at a concrete URI, parameter values and target
directory. -/
theorem c1_parse_install_uri_witness :
    parseCommandLineArgs (some (installUriString "1" "2")) (some "t")
      (fun _ => some (installUrl "1" "2")) = ArgsResult.ok "t" "1" "2" :=
  (c1_parse_install_uri "1" "2" "t" (by decide) (by decide) (by decide)).1

/-- Counterexample to C1 as stated: on the well-formed URI
curseforge://install?addonId=&fileId=2, whose addonId value is the
empty string, parsing throws the bad-url error instead of returning
the pair, because an empty JavaScript string is falsy. -/
theorem c1_empty_value_counterexample :
    parseCommandLineArgs (some (installUriString "" "2")) (some "t")
      (fun _ => some (installUrl "" "2")) = ArgsResult.badUrl ∧
    parseCommandLineArgs (some (installUriString "" "2")) (some "t")
      (fun _ => some (installUrl "" "2")) ≠ ArgsResult.ok "t" "" "2" := by
  constructor <;> decide

/-- C2 (amended): on a fresh target, for a well-formed archive whose
manifest has K entries and whose overrides subtree has M file entries,
provided the remote file names of the K entries and the mirrored
override paths are pairwise distinct as target paths, a successful run
materializes exactly the K mod destinations and the M mirrored
override paths, no more and no fewer: K + M files in total. -/
theorem c2_run_file_counts (net : Network) (jsonParse : String → Option ModpackManifest)
    (z : JSZip) (targetDir : String) (entry : ZipEntry) (manifest : ModpackManifest)
    (hfile : z.file "manifest.json" = some entry)
    (hjson : jsonParse entry.content = some manifest)
    (hnodup : (modsPaths net targetDir manifest.files ++ ovPaths z targetDir).Nodup) :
    ∃ fsF, runModpack net jsonParse z targetDir FS.empty = Outcome.ok fsF ∧
      (fsF.files.map Prod.fst).Perm
        (modsPaths net targetDir manifest.files ++ ovPaths z targetDir) ∧
      fsF.files.length = manifest.files.length + (ovFileEntries z).length := by
  have hmpaths : (manifest.files.map (modWrite net targetDir)).map Prod.fst =
      modsPaths net targetDir manifest.files := by
    simp [modsPaths, List.map_map, Function.comp]
  have hopaths : ((ovFileEntries z).map (ovWrite targetDir)).map Prod.fst =
      ovPaths z targetDir := by
    simp [ovPaths, List.map_map, Function.comp]
  have hfs1files : (FS.empty.mkdirRec (segs targetDir ++ ["mods"])).files = [] := rfl
  have hfs1paths : (FS.empty.mkdirRec (segs targetDir ++ ["mods"])).paths = [] := rfl
  have hndM : ((manifest.files.map (modWrite net targetDir)).map Prod.fst ++
      (FS.empty.mkdirRec (segs targetDir ++ ["mods"])).paths).Nodup := by
    rw [hmpaths, hfs1paths, List.append_nil]
    exact hnodup.of_append_left
  have hfsDfiles : (downloadFold net targetDir manifest.files
      (FS.empty.mkdirRec (segs targetDir ++ ["mods"]))).files =
      (manifest.files.map (modWrite net targetDir)).reverse := by
    rw [downloadFold_eq_applyWrites, applyWrites_files _ _ hndM, hfs1files,
      List.append_nil]
  have hfsDpaths : (downloadFold net targetDir manifest.files
      (FS.empty.mkdirRec (segs targetDir ++ ["mods"]))).paths =
      (modsPaths net targetDir manifest.files).reverse := by
    rw [FS.paths, hfsDfiles, List.map_reverse, hmpaths]
  have hndO : (((ovFileEntries z).map (ovWrite targetDir)).map Prod.fst ++
      (downloadFold net targetDir manifest.files
        (FS.empty.mkdirRec (segs targetDir ++ ["mods"]))).paths).Nodup := by
    rw [hopaths, hfsDpaths]
    have hperm : (modsPaths net targetDir manifest.files ++ ovPaths z targetDir).Perm
        (ovPaths z targetDir ++ (modsPaths net targetDir manifest.files).reverse) :=
      List.perm_append_comm.trans
        (List.Perm.append_left _ (List.reverse_perm _).symm)
    exact hperm.nodup hnodup
  have hfsFfiles : ((overridesEntries z).foldl (overrideStep targetDir)
      (downloadFold net targetDir manifest.files
        (FS.empty.mkdirRec (segs targetDir ++ ["mods"])))).files =
      ((ovFileEntries z).map (ovWrite targetDir)).reverse ++
        (manifest.files.map (modWrite net targetDir)).reverse := by
    rw [overrideFold_files targetDir (overridesEntries z) _ _ rfl]
    have h2 : ((overridesEntries z).filter (fun pe => !pe.2.dir)).map (ovWrite targetDir) =
        (ovFileEntries z).map (ovWrite targetDir) := rfl
    rw [h2, applyWrites_files _ _ hndO, hfsDfiles]
  have hdl : downloadMods net jsonParse z targetDir FS.empty =
      Outcome.ok (downloadFold net targetDir manifest.files
        (FS.empty.mkdirRec (segs targetDir ++ ["mods"]))) := by
    simp [downloadMods, hfile, hjson]
  refine ⟨(overridesEntries z).foldl (overrideStep targetDir)
    (downloadFold net targetDir manifest.files
      (FS.empty.mkdirRec (segs targetDir ++ ["mods"]))), ?_, ?_, ?_⟩
  · simp only [runModpack]
    rw [hdl]
    exact expandOverrides_eq z targetDir _
  · rw [hfsFfiles]
    simp only [List.map_append, List.map_reverse, hmpaths, hopaths]
    exact ((List.reverse_perm _).append (List.reverse_perm _)).trans
      List.perm_append_comm
  · rw [hfsFfiles]
    simp only [List.length_append, List.length_reverse, List.length_map]
    omega

/-- Witness for C2 on a one-mod manifest and an overrides subtree with
one directory marker and one file. -/
theorem c2_run_file_counts_witness :
    ∃ fsF, runModpack netDistinct (jsonEnv manifestOne) zipFull "t" FS.empty =
        Outcome.ok fsF ∧
      (fsF.files.map Prod.fst).Perm
        (modsPaths netDistinct "t" manifestOne.files ++ ovPaths zipFull "t") ∧
      fsF.files.length = manifestOne.files.length + (ovFileEntries zipFull).length :=
  c2_run_file_counts netDistinct (jsonEnv manifestOne) zipFull "t"
    ⟨"manifest.json", false, "MANIFEST"⟩ manifestOne
    (by decide) (by decide) (by decide)

/-- Counterexample to C2 as stated: a manifest with two entries whose
remote metadata carries the same file name yields a single file under
mods, not two, because the second download overwrites the first. -/
theorem c2_duplicate_filename_counterexample :
    ∃ fs, runModpack netClash (jsonEnv manifestTwo) zipNoOverrides "t" FS.empty =
        Outcome.ok fs ∧
      manifestTwo.files.length = 2 ∧ (ovFileEntries zipNoOverrides).length = 0 ∧
      fs.files.length = 1 := by
  refine ⟨⟨[["t"], ["t", "mods"]], [(["t", "mods", "same.jar"], "bytes url3")]⟩,
    ?_, ?_, ?_, ?_⟩ <;> decide

/-- C3: when the archive has no manifest.json entry, downloadMods
throws the invalid-modpack error, and no file has been written at the
point of failure (only the mods directory creation preceded the
check). -/
theorem c3_missing_manifest (net : Network)
    (jsonParse : String → Option ModpackManifest) (z : JSZip)
    (targetDir : String) (fs : FS)
    (h : z.file "manifest.json" = none) :
    downloadMods net jsonParse z targetDir fs =
      Outcome.err "invalid modpack" (fs.mkdirRec (segs targetDir ++ ["mods"])) ∧
    (downloadMods net jsonParse z targetDir fs).toFS.files = fs.files := by
  constructor
  · simp [downloadMods, h]
  · simp [downloadMods, h, Outcome.toFS, FS.files_mkdirRec]

/-- Witness for C3 on a concrete archive without manifest.json. -/
theorem c3_missing_manifest_witness :
    downloadMods netDistinct (jsonEnv manifestOne) (JSZip.mk []) "t" FS.empty =
      Outcome.err "invalid modpack" (FS.empty.mkdirRec (segs "t" ++ ["mods"])) ∧
    (downloadMods netDistinct (jsonEnv manifestOne) (JSZip.mk []) "t" FS.empty).toFS.files =
      FS.empty.files :=
  c3_missing_manifest netDistinct (jsonEnv manifestOne) (JSZip.mk []) "t" FS.empty (by decide)

/-- C4 (code bug): the null check guarding the overrides subtree is
unreachable, because the JSZip folder method creates the folder when
it is absent and never returns null; extraction therefore always
completes normally, and on an archive without any overrides subtree it
succeeds writing nothing, instead of failing before any override is
written as specified. -/
theorem c4_overrides_check_unreachable :
    (∀ (z : JSZip) (targetDir : String) (fs : FS),
      ∃ fs', expandOverrides z targetDir fs = Outcome.ok fs') ∧
    expandOverrides zipNoOverrides "t" FS.empty = Outcome.ok FS.empty := by
  constructor
  · intro z targetDir fs
    exact ⟨_, rfl⟩
  · decide

/-- C5 (code bug): on an overrides subtree holding a directory marker,
the current variant creates the directory and writes no file, but the
earlier variant has no directory-marker case: it only creates the
parent directory (not the marked one) and streams the entry to a file
at the directory's own path. -/
theorem c5_dir_marker_variants :
    (∃ fs, expandOverrides zipDirMarker "t" FS.empty = Outcome.ok fs ∧
      ["t", "config"] ∈ fs.dirs ∧ fs.files = []) ∧
    (∃ fs, expandOverridesV0 zipDirMarker "t" FS.empty = Outcome.ok fs ∧
      fs.files.map Prod.fst = [["t", "config"]] ∧ ["t", "config"] ∉ fs.dirs) := by
  constructor
  · exact ⟨⟨[["t"], ["t", "config"]], []⟩, by decide, by decide, by decide⟩
  · exact ⟨⟨[["t"]], [(["t", "config"], "")]⟩, by decide, by decide, by decide⟩

/-- C6: at every instant during the bounded concurrent download phase,
the number of in-flight transfer tasks is at most the fixed limit of
6: every state reachable from an all-queued initial state under the
promise-limit scheduling steps has at most downloadLimit running
tasks. -/
theorem c6_running_le_limit (n : Nat) (s : SchedState)
    (h : SchedReach downloadLimit ⟨n, 0, 0⟩ s) : s.running ≤ downloadLimit := by
  induction h with
  | refl => exact Nat.zero_le _
  | tail _ hstep ih =>
    cases hstep with
    | start q r d hr => exact hr
    | finish q r d => exact Nat.le_of_succ_le ih

/-- Witness for C6 on a concrete scheduler run of three tasks with one
start step taken. -/
theorem c6_running_le_limit_witness :
    SchedState.running ⟨2, 1, 0⟩ ≤ downloadLimit :=
  c6_running_le_limit 3 ⟨2, 1, 0⟩
    (Relation.ReflTransGen.single (SchedStep.start 2 0 0 (by decide)))

/-- C7: for every set of download tasks and every completion
interleaving, the shared downloadedCount counter is incremented
exactly once per completed task: any run reaching the state where all
tasks completed ends with the counter equal to the number of tasks. -/
theorem c7_counter_reaches_total (tasks : List Nat) (c : Nat)
    (h : CountReach (tasks, 0) ([], c)) : c = tasks.length := by
  have hinv := countReach_invariant h
  simpa using hinv

/-- Witness for C7 on a concrete two-task run completing out of
order. -/
theorem c7_counter_reaches_total_witness : (2 : Nat) = [10, 20].length :=
  c7_counter_reaches_total [10, 20] 2
    (Relation.ReflTransGen.head (CountStep.complete [10] [] 20 0)
      (Relation.ReflTransGen.single (CountStep.complete [] [] 10 1)))

/-- C8 (amended): when the remote file names of the manifest entries
are pairwise distinct, the files materialized under mods by the
download loop are, up to order, the same for any two manifests whose
entry lists are permutations of each other. -/
theorem c8_download_set_perm_invariant (net : Network) (targetDir : String)
    (l₁ l₂ : List ManifestEntry) (hperm : l₁.Perm l₂)
    (hnodup : (modsPaths net targetDir l₁).Nodup) :
    ((downloadFold net targetDir l₁ FS.empty).files).Perm
      ((downloadFold net targetDir l₂ FS.empty).files) := by
  have hp1 : (l₁.map (modWrite net targetDir)).map Prod.fst =
      modsPaths net targetDir l₁ := by
    simp [modsPaths, List.map_map, Function.comp]
  have hp2 : (l₂.map (modWrite net targetDir)).map Prod.fst =
      modsPaths net targetDir l₂ := by
    simp [modsPaths, List.map_map, Function.comp]
  have hnodup₂ : (modsPaths net targetDir l₂).Nodup :=
    List.Perm.nodup (hperm.map (fun e => (modWrite net targetDir e).1)) hnodup
  have h1 : (downloadFold net targetDir l₁ FS.empty).files =
      (l₁.map (modWrite net targetDir)).reverse := by
    rw [downloadFold_eq_applyWrites, applyWrites_files _ _ (by
      rw [hp1]; simpa [FS.empty, FS.paths] using hnodup)]
    simp [FS.empty]
  have h2 : (downloadFold net targetDir l₂ FS.empty).files =
      (l₂.map (modWrite net targetDir)).reverse := by
    rw [downloadFold_eq_applyWrites, applyWrites_files _ _ (by
      rw [hp2]; simpa [FS.empty, FS.paths] using hnodup₂)]
    simp [FS.empty]
  rw [h1, h2]
  exact (List.reverse_perm _).trans
    ((hperm.map (modWrite net targetDir)).trans (List.reverse_perm _).symm)

/-- Witness for C8 on two permuted two-entry manifests with distinct
remote file names. -/
theorem c8_download_set_perm_invariant_witness :
    ((downloadFold netDistinct "t" [⟨1, 2⟩, ⟨3, 4⟩] FS.empty).files).Perm
      ((downloadFold netDistinct "t" [⟨3, 4⟩, ⟨1, 2⟩] FS.empty).files) :=
  c8_download_set_perm_invariant netDistinct "t" [⟨1, 2⟩, ⟨3, 4⟩] [⟨3, 4⟩, ⟨1, 2⟩]
    (by decide) (by decide)

/-- Counterexample to C8 as stated: two permuted manifests whose two
entries share one remote file name but carry different contents leave
different (path, contents) sets, because whichever download completes
last wins. -/
theorem c8_order_counterexample :
    (List.Perm
      [ManifestEntry.mk 1 2, ManifestEntry.mk 3 4]
      [ManifestEntry.mk 3 4, ManifestEntry.mk 1 2]) ∧
    (downloadFold netClash "t" [⟨1, 2⟩, ⟨3, 4⟩] FS.empty).files ≠
      (downloadFold netClash "t" [⟨3, 4⟩, ⟨1, 2⟩] FS.empty).files := by
  constructor <;> decide

/-- C9: a URI whose addonId or fileId query parameter is present with
an empty-string value fails with the bad-url error, exactly as if the
parameter were absent. -/
theorem c9_empty_param_value (x tdir : String) (htd : tdir ≠ "") :
    parseCommandLineArgs (some (installUriString "" x)) (some tdir)
      (fun _ => some (installUrl "" x)) = ArgsResult.badUrl ∧
    parseCommandLineArgs (some (installUriString x "")) (some tdir)
      (fun _ => some (installUrl x "")) = ArgsResult.badUrl := by
  constructor
  · simp [parseCommandLineArgs, installUriString_ne_empty "" x,
      installUriString_ne_help "" x, htd, installUrl_protocol, installUrl_hostname,
      installUrl_get_addonId, installUrl_get_fileId]
  · simp [parseCommandLineArgs, installUriString_ne_empty x "",
      installUriString_ne_help x "", htd, installUrl_protocol, installUrl_hostname,
      installUrl_get_addonId, installUrl_get_fileId]

/-- Witness for C9 at a concrete parameter value and target
directory. -/
theorem c9_empty_param_value_witness :
    parseCommandLineArgs (some (installUriString "" "2")) (some "t")
      (fun _ => some (installUrl "" "2")) = ArgsResult.badUrl ∧
    parseCommandLineArgs (some (installUriString "2" "")) (some "t")
      (fun _ => some (installUrl "2" "")) = ArgsResult.badUrl :=
  c9_empty_param_value "2" "t" (by decide)

/-- C10: the mods directory is created before the manifest check, so a
run failing with invalid modpack has already created targetDir/mods;
if that directory was not there before, the failing run has changed
the filesystem. -/
theorem c10_mkdir_precedes_manifest_check (net : Network)
    (jsonParse : String → Option ModpackManifest) (z : JSZip)
    (targetDir : String) (fs : FS)
    (h : z.file "manifest.json" = none) :
    ∃ fs', downloadMods net jsonParse z targetDir fs = Outcome.err "invalid modpack" fs' ∧
      (segs targetDir ++ ["mods"]) ∈ fs'.dirs ∧
      ((segs targetDir ++ ["mods"]) ∉ fs.dirs → fs' ≠ fs) := by
  refine ⟨fs.mkdirRec (segs targetDir ++ ["mods"]), ?_, ?_, ?_⟩
  · simp [downloadMods, h]
  · exact FS.mem_mkdirRec_self fs _ (by simp)
  · intro hnot heq
    exact hnot (heq ▸ FS.mem_mkdirRec_self fs _ (by simp))

/-- Witness for C10 on a concrete archive without manifest.json and a
fresh target. -/
theorem c10_mkdir_precedes_manifest_check_witness :
    ∃ fs', downloadMods netDistinct (jsonEnv manifestOne) (JSZip.mk []) "t" FS.empty =
        Outcome.err "invalid modpack" fs' ∧
      (segs "t" ++ ["mods"]) ∈ fs'.dirs ∧
      ((segs "t" ++ ["mods"]) ∉ FS.empty.dirs → fs' ≠ FS.empty) :=
  c10_mkdir_precedes_manifest_check netDistinct (jsonEnv manifestOne)
    (JSZip.mk []) "t" FS.empty (by decide)

end ModpackDownloader
